import Mathlib

/-!
Verification of the PortMidi port layer (src/mido/portmidi.py).

The Python module is shallowly embedded: each Python function or method
is translated to a Lean definition over explicit state. Machine integers
are modelled as `Nat` (with explicit `% 2 ^ 32` where the source masks
with `0xffffffff`); driver return codes are `Int` since negativity is
what the source tests. Exceptions are modelled by `Option`/`Except`
values threaded through the state. Calls into the native driver are
recorded in explicit call traces so that claims of the form "no driver
call is made" can be stated.
-/

namespace Portmidi

/-- Error taxonomy of the module. The source raises `IOError` or
`ValueError` carrying a message string; the spec names the cases
`UnknownPort`, `PortAlreadyOpen`, `NoDefaultDevice`,
`NativeDriverError` and `SendOnClosedPort`. `nativeDriverError` carries
the negative driver return code; the source wraps the corresponding
driver error text obtained from `Pm_GetErrorText(code)`. -/
inductive PortError where
  | unknownPort (name : String)
  | portAlreadyOpen (name : String)
  | noDefaultDevice
  | nativeDriverError (code : Int)
  | sendOnClosedPort
deriving DecidableEq, Repr

/-- `_check_error(return_value)` from the source: raise an error
wrapping the driver error text when `return_value < 0`. The raised
exception is modelled as `some (nativeDriverError code)`. -/
def check_error (returnValue : Int) : Option PortError :=
  if returnValue < 0 then some (PortError.nativeDriverError returnValue) else none

/-- `DeviceInfo` from the source: one registry record, a snapshot of
`Pm_GetDeviceInfo(device_id)`. -/
structure DeviceInfo where
  device_id : Nat
  interface : String
  name : String
  is_input : Bool
  is_output : Bool
  opened : Bool
deriving DecidableEq, Repr

/-! ## PackedEventCodec -/

/-- One round of the byte-extraction loop in `Input.poll` (and
`_print_event`): peel `n` bytes off `packed`, least significant first,
via `byte = packed & 0xff` then `packed >>= 8`. -/
def decodeBytes : Nat → Nat → List Nat
  | 0, _ => []
  | n + 1, packed => packed % 256 :: decodeBytes n (packed >>> 8)

/-- Decoding of a packed event word as done by `Input.poll`: mask the
event word to 32 bits (`event.message & 0xffffffff`) and extract 4
bytes in ascending significance order. -/
def decode (word : Nat) : List Nat :=
  decodeBytes 4 (word % 4294967296)

/-- Encoding of a byte sequence as done by `Output.send`:
`packed_message = 0`, then for each byte of the reversed sequence
`packed_message <<= 8; packed_message |= byte`. -/
def encode (seq : List Nat) : Nat :=
  seq.reverse.foldl (fun packed byte => (packed <<< 8) ||| byte) 0

/-- One fold step of `encode` on a byte below 256 is plain arithmetic:
shifting left by 8 and or-ing in a small byte is multiply-and-add. -/
theorem encode_step (packed byte : Nat) (h : byte < 256) :
    (packed <<< 8) ||| byte = packed * 256 + byte := by
  have h8 : packed <<< 8 = 2 ^ 8 * packed := by
    rw [Nat.shiftLeft_eq]; ring
  have key := Nat.mul_add_lt_is_or (show byte < 2 ^ 8 by omega) packed
  rw [h8, ← key]; ring

/-- Shifting right by 8 bits is division by 256. -/
theorem shiftRight_eight (m : Nat) : m >>> 8 = m / 256 := by
  rw [Nat.shiftRight_eq_div_pow]

/-- `decode` written out as its four extracted bytes. -/
theorem decode_eq (w : Nat) :
    decode w =
      [(w % 4294967296) % 256,
       ((w % 4294967296) >>> 8) % 256,
       (((w % 4294967296) >>> 8) >>> 8) % 256,
       ((((w % 4294967296) >>> 8) >>> 8) >>> 8) % 256] := rfl

/-- C3: for every byte sequence of length 1 to 4 whose elements are in
0..255, decoding the word produced by encoding that sequence and
restricting to the first `length` decoded bytes yields the original
sequence. -/
theorem decode_encode_roundtrip (bs : List Nat) (h1 : 1 ≤ bs.length)
    (h2 : bs.length ≤ 4) (h3 : ∀ b ∈ bs, b < 256) :
    (decode (encode bs)).take bs.length = bs := by
  rcases bs with _ | ⟨a, _ | ⟨b, _ | ⟨c, _ | ⟨d, _ | ⟨e, rest⟩⟩⟩⟩⟩
  · simp at h1
  · have ha : a < 256 := h3 a (by simp)
    have he : encode [a] = a := by
      simp only [encode, List.reverse_cons, List.reverse_nil, List.nil_append,
        List.foldl_cons, List.foldl_nil]
      rw [encode_step _ _ ha]
      omega
    rw [he, decode_eq]
    simp only [shiftRight_eight, List.length_cons, List.length_nil,
      List.take_succ_cons, List.take_zero, List.cons.injEq, and_true]
    omega
  · have ha : a < 256 := h3 a (by simp)
    have hb : b < 256 := h3 b (by simp)
    have he : encode [a, b] = b * 256 + a := by
      simp only [encode, List.reverse_cons, List.reverse_nil, List.nil_append,
        List.cons_append, List.foldl_cons, List.foldl_nil]
      rw [encode_step _ _ ha, encode_step _ _ hb]; omega
    rw [he, decode_eq]
    simp only [shiftRight_eight, List.length_cons, List.length_nil,
      List.take_succ_cons, List.take_zero, List.cons.injEq, and_true]
    omega
  · have ha : a < 256 := h3 a (by simp)
    have hb : b < 256 := h3 b (by simp)
    have hc : c < 256 := h3 c (by simp)
    have he : encode [a, b, c] = (c * 256 + b) * 256 + a := by
      simp only [encode, List.reverse_cons, List.reverse_nil, List.nil_append,
        List.cons_append, List.foldl_cons, List.foldl_nil]
      rw [encode_step _ _ ha, encode_step _ _ hb, encode_step _ _ hc]; omega
    rw [he, decode_eq]
    simp only [shiftRight_eight, List.length_cons, List.length_nil,
      List.take_succ_cons, List.take_zero, List.cons.injEq, and_true]
    omega
  · have ha : a < 256 := h3 a (by simp)
    have hb : b < 256 := h3 b (by simp)
    have hc : c < 256 := h3 c (by simp)
    have hd : d < 256 := h3 d (by simp)
    have he : encode [a, b, c, d] = ((d * 256 + c) * 256 + b) * 256 + a := by
      simp only [encode, List.reverse_cons, List.reverse_nil, List.nil_append,
        List.cons_append, List.foldl_cons, List.foldl_nil]
      rw [encode_step _ _ ha, encode_step _ _ hb, encode_step _ _ hc,
        encode_step _ _ hd]
      omega
    rw [he, decode_eq]
    simp only [shiftRight_eight, List.length_cons, List.length_nil,
      List.take_succ_cons, List.take_zero, List.cons.injEq, and_true]
    omega
  · simp only [List.length_cons] at h2
    omega

/-- C3 witness: the spec example sequence `[0x90, 0x40, 0x7F]`
round-trips through the codec. -/
theorem decode_encode_roundtrip_witness :
    (decode (encode [144, 64, 127])).take ([144, 64, 127] : List Nat).length
      = [144, 64, 127] :=
  decode_encode_roundtrip [144, 64, 127] (by decide) (by decide) (by decide)

/-! ## DeviceRegistry

`get_devices()` builds one `DeviceInfo` per driver device id; the
driver registry contents are modelled as the resulting list of records,
over which the queries below are defined. -/

/-- `get_input_names()` from the source: project the `name` of every
`is_input` record of `get_devices()` and return the sorted list. -/
def get_input_names (devices : List DeviceInfo) : List String :=
  List.insertionSort (· ≤ ·)
    ((devices.filter (fun d => d.is_input)).map (fun d => d.name))

/-- `get_output_names()` from the source: project the `name` of every
`is_output` record of `get_devices()` and return the sorted list. -/
def get_output_names (devices : List DeviceInfo) : List String :=
  List.insertionSort (· ≤ ·)
    ((devices.filter (fun d => d.is_output)).map (fun d => d.name))

/-- C10: for every registry contents, `get_input_names()`
(respectively `get_output_names()`) is exactly the name projection of
the records whose `is_input` (respectively `is_output`) flag is true,
sorted ascending; being a permutation of that projection, it preserves
duplicates and neither adds nor drops entries. -/
theorem get_names_sorted_projection (devices : List DeviceInfo) :
    (get_input_names devices).Sorted (· ≤ ·)
    ∧ (get_input_names devices).Perm
        ((devices.filter (fun d => d.is_input)).map (fun d => d.name))
    ∧ (get_output_names devices).Sorted (· ≤ ·)
    ∧ (get_output_names devices).Perm
        ((devices.filter (fun d => d.is_output)).map (fun d => d.name)) :=
  ⟨List.sorted_insertionSort _ _, List.perm_insertionSort _ _,
   List.sorted_insertionSort _ _, List.perm_insertionSort _ _⟩

/-! ## Port open: device selection by name -/

/-- The direction test of the scan in `Port.__init__`: for an input
port the record is skipped when `device.is_output` is set, for an
output port when `device.is_input` is set. -/
def directionSkip (isInput : Bool) (d : DeviceInfo) : Bool :=
  if isInput then d.is_output else d.is_input

/-- The `for device in get_devices()` scan of `Port.__init__`: skip a
record whose `name` differs from the requested name, skip a record the
direction test rejects, fail with `portAlreadyOpen` if the first
remaining record is `opened`, otherwise select it; the `else` clause of
the loop fails with `unknownPort` when the scan finishes without a
match. -/
def scanDevices (isInput : Bool) (name : String) :
    List DeviceInfo → Except PortError DeviceInfo
  | [] => Except.error (PortError.unknownPort name)
  | d :: rest =>
    if d.name ≠ name then scanDevices isInput name rest
    else if directionSkip isInput d then scanDevices isInput name rest
    else if d.opened then Except.error (PortError.portAlreadyOpen name)
    else Except.ok d

/-- The scan as the claim words it: skip exactly the records whose
direction does not match the requested direction, where a record
matches the input direction when `is_input` is set and the output
direction when `is_output` is set (so a record with both flags set
matches either direction). Stated for comparison with `scanDevices`;
the rest mirrors the source scan. -/
def scanDevicesSpec (isInput : Bool) (name : String) :
    List DeviceInfo → Except PortError DeviceInfo
  | [] => Except.error (PortError.unknownPort name)
  | d :: rest =>
    if (if isInput then d.is_input else d.is_output) = false then
      scanDevicesSpec isInput name rest
    else if d.name ≠ name then scanDevicesSpec isInput name rest
    else if d.opened then Except.error (PortError.portAlreadyOpen name)
    else Except.ok d

/-- A registry record carrying both direction flags. -/
def dualDevice : DeviceInfo :=
  { device_id := 0, interface := "ALSA", name := "X",
    is_input := true, is_output := true, opened := false }

/-- C2 counterexample: on a registry holding one record named `X` with
both `is_input` and `is_output` set, the source scan for an input port
named `X` skips the record (it tests `is_output`, not `is_input`) and
fails with `unknownPort`, while the scan described by the claim
accepts the record. -/
theorem scan_dual_direction_counterexample :
    scanDevices true "X" [dualDevice] =
        Except.error (PortError.unknownPort "X")
    ∧ scanDevicesSpec true "X" [dualDevice] = Except.ok dualDevice := by
  constructor <;> rfl

/-- The candidate of the amended scan description: the first record
whose name is the requested one and which the direction test keeps. -/
def firstCandidate (isInput : Bool) (name : String)
    (reg : List DeviceInfo) : Option DeviceInfo :=
  reg.find? (fun d => d.name == name && !directionSkip isInput d)

/-- C2 amended: the scan visits the registry in order, skips exactly
the records whose opposite-direction flag is set (`is_output` for an
input request, `is_input` for an output request — so a record with both
flags set is skipped for either direction), takes as candidate the
first non-skipped record whose name equals the requested name, fails
with `portAlreadyOpen` if that candidate is `opened` without scanning
further, and fails with `unknownPort` when no candidate exists. -/
theorem scanDevices_characterization (isInput : Bool) (name : String)
    (reg : List DeviceInfo) :
    scanDevices isInput name reg =
      match firstCandidate isInput name reg with
      | none => Except.error (PortError.unknownPort name)
      | some d =>
          if d.opened then Except.error (PortError.portAlreadyOpen name)
          else Except.ok d := by
  induction reg with
  | nil => rfl
  | cons d rest ih =>
    by_cases hname : d.name = name
    · by_cases hskip : directionSkip isInput d
      · simpa [scanDevices, firstCandidate, hname, hskip] using ih
      · simp [scanDevices, firstCandidate, hname, hskip]
    · simpa [scanDevices, firstCandidate, hname] using ih

/-! ## Port open: constructor -/

/-- A selected record is never `opened`: the scan raises
`portAlreadyOpen` instead of selecting an opened record. -/
theorem scanDevices_ok_not_opened (isInput : Bool) (name : String) :
    ∀ reg d, scanDevices isInput name reg = Except.ok d → d.opened = false := by
  intro reg
  induction reg with
  | nil => intro d h; simp [scanDevices] at h
  | cons r rest ih =>
    intro d h
    by_cases hname : r.name = name
    · by_cases hskip : directionSkip isInput r
      · exact ih d (by simpa [scanDevices, hname, hskip] using h)
      · by_cases hop : r.opened
        · simp [scanDevices, hname, hskip, hop] at h
        · have hrd : r = d := by
            simpa [scanDevices, hname, hskip, hop] using h
          rw [← hrd]
          simpa using hop
    · exact ih d (by simpa [scanDevices, hname] using h)

/-- Device selection in `Port.__init__`: with no requested name, use
the driver default device id for the direction and fail with
`noDefaultDevice` (the source `IOError('no default port found')`) when
the id is negative, the `DeviceInfo` snapshot for the default id being
`defaultInfo`; with a requested name, run the registry scan. -/
def resolveDevice (isInput : Bool) (name : Option String) (defaultId : Int)
    (defaultInfo : DeviceInfo) (reg : List DeviceInfo) :
    Except PortError DeviceInfo :=
  match name with
  | none =>
      if defaultId < 0 then Except.error PortError.noDefaultDevice
      else Except.ok defaultInfo
  | some n => scanDevices isInput n reg

/-- `self.device.opened = True` executed on success of the driver open. -/
def markOpened (d : DeviceInfo) : DeviceInfo := { d with opened := true }

/-- The observable outcome of `Port.__init__`: the `closed` flag
(set to `True` on entry, to `False` only after a successful driver
open), the bound `DeviceInfo` (the `self.device` attribute, `none`
while unassigned), and the exception that escaped, if any. -/
structure InitOutcome where
  closed : Bool
  device : Option DeviceInfo
  error : Option PortError
deriving DecidableEq, Repr

/-- `Port.__init__` of the source: select a device, then open the
driver stream (`Pm_OpenInput` or `Pm_OpenOutput`, whose return code is
`openResult`) under `_check_error`; only when no error is raised are
`self.closed = False` and `self.device.opened = True` executed. -/
def portInit (isInput : Bool) (name : Option String) (defaultId : Int)
    (defaultInfo : DeviceInfo) (reg : List DeviceInfo)
    (openResult : Int) : InitOutcome :=
  match resolveDevice isInput name defaultId defaultInfo reg with
  | Except.error e => { closed := true, device := none, error := some e }
  | Except.ok d =>
      match check_error openResult with
      | some e => { closed := true, device := some d, error := some e }
      | none => { closed := false, device := some (markOpened d), error := none }

/-- C5: whenever the driver stream-open call returns a negative code,
the constructor raises `nativeDriverError` with that code, the port
stays closed, and the bound device record is exactly the selected
record, its `opened` flag unmodified — false whenever the device was
selected by name. -/
theorem portInit_driver_error (isInput : Bool) (name : Option String)
    (defaultId : Int) (defaultInfo : DeviceInfo) (reg : List DeviceInfo)
    (openResult : Int) (d : DeviceInfo)
    (hres : resolveDevice isInput name defaultId defaultInfo reg = Except.ok d)
    (hneg : openResult < 0) :
    portInit isInput name defaultId defaultInfo reg openResult =
      { closed := true, device := some d,
        error := some (PortError.nativeDriverError openResult) }
    ∧ (∀ n, name = some n → d.opened = false) := by
  constructor
  · simp [portInit, hres, check_error, hneg]
  · intro n hn
    subst hn
    exact scanDevices_ok_not_opened isInput n reg d hres

/-- A single-record registry used in concrete runs. -/
def inDevice : DeviceInfo :=
  { device_id := 0, interface := "ALSA", name := "Dev",
    is_input := true, is_output := false, opened := false }

/-- C5 witness: opening the input device `Dev` with driver open
returning `-1` fails with `nativeDriverError (-1)`, leaves the port
closed and the bound record unopened. -/
theorem portInit_driver_error_witness :
    portInit true (some "Dev") 0 inDevice [inDevice] (-1) =
      { closed := true, device := some inDevice,
        error := some (PortError.nativeDriverError (-1)) }
    ∧ (∀ n, (some "Dev" : Option String) = some n → inDevice.opened = false) :=
  portInit_driver_error true (some "Dev") 0 inDevice [inDevice] (-1) inDevice
    (by rfl) (by norm_num)

/-! ## Port close and scope exit -/

/-- Calls made into the native driver stream API. -/
inductive DriverCall where
  | closeStream
  | writeShort (timestamp : Nat) (word : Nat)
  | writeSysex (timestamp : Nat) (bytes : List Nat)
deriving DecidableEq, Repr

/-- The mutable state of a constructed `Port` relevant to close:
`self.closed` and the `opened` flag of `self.device`. -/
structure PortState where
  closed : Bool
  deviceOpened : Bool
deriving DecidableEq, Repr

/-- `Port.close()` from the source: a no-op on a closed port; otherwise
call `Pm_Close` under `_check_error`, and only when no error is raised
set `self.closed = True` and `self.device.opened = False`. Returns the
new state, the driver calls made, and the escaped exception, if any. -/
def port_close (st : PortState) (closeResult : Int) :
    PortState × List DriverCall × Option PortError :=
  if st.closed then (st, [], none)
  else
    match check_error closeResult with
    | some e => (st, [DriverCall.closeStream], some e)
    | none => ({ closed := true, deviceOpened := false },
               [DriverCall.closeStream], none)

/-- `Port.__exit__(self, type, value, traceback)` from the source: the
body is `return False`. It ignores the exception information, makes no
driver call and mutates nothing. -/
def port_exit (st : PortState) (_excInfo : Option String) :
    PortState × List DriverCall × Bool :=
  (st, [], false)

/-- C1: contrary to the claim, the context-manager exit operation does
not perform `close()`: on every port state and every exit path (normal
or exceptional), `__exit__` makes no driver call, leaves the port state
unchanged — an open port stays open — and returns `False`. -/
theorem port_exit_no_close (st : PortState) (excInfo : Option String) :
    port_exit st excInfo = (st, [], false) := rfl

/-! ## Output.send -/

/-- The fields of a structured message that `Output.send` consumes:
the `type` discriminator, the ordinary byte sequence `message.bytes()`
and the raw sysex buffer `bytes(message.bin())`. -/
structure MidiMessage where
  type : String
  dataBytes : List Nat
  binBytes : List Nat
deriving DecidableEq, Repr

/-- `Output.send(message)` from the source: raise on a closed port
before any driver access; for a sysex message call `Pm_WriteSysEx` with
timestamp 0 on the raw buffer; otherwise pack `message.bytes()` into a
word with `encode` and call `Pm_WriteShort` with timestamp 0; either
write runs under `_check_error` on its return code `writeResult`. -/
def send (closed : Bool) (msg : MidiMessage) (writeResult : Int) :
    List DriverCall × Option PortError :=
  if closed then ([], some PortError.sendOnClosedPort)
  else if msg.type = "sysex" then
    ([DriverCall.writeSysex 0 msg.binBytes], check_error writeResult)
  else
    ([DriverCall.writeShort 0 (encode msg.dataBytes)], check_error writeResult)

/-- C8: sending any message on a closed output port raises
`sendOnClosedPort` and performs no driver call at all. -/
theorem send_closed_no_driver_call (msg : MidiMessage) (writeResult : Int) :
    send true msg writeResult = ([], some PortError.sendOnClosedPort) := rfl

/-- An ordinary (non-sysex) message whose byte sequence holds 5 bytes. -/
def fiveByteMessage : MidiMessage :=
  { type := "control5", dataBytes := [1, 2, 3, 4, 5], binBytes := [] }

/-- C4: on an ordinary message of 5 bytes, `send` raises nothing before
the driver write: it silently packs the sequence into the word
`0x0504030201`, which exceeds the 32-bit range, and hands it to the
short-message write. -/
theorem send_oversized_no_fail_fast :
    send false fiveByteMessage 0 =
      ([DriverCall.writeShort 0 21542142465], none)
    ∧ 4294967296 ≤ encode fiveByteMessage.dataBytes := by
  constructor
  · rfl
  · decide

/-! ## Input.poll -/

/-- Modelled from the spec: the external byte-stream Parser
(`mido/parser.py`, outside this module) at its interface boundary —
`feed_byte(byte)` advances an abstract parser state, and
`parsedCount` is the length of its buffer of fully assembled messages
(`len(self._parser._parsed_messages)` in `Input.poll`). -/
structure ParserModel (σ : Type) where
  feedByte : σ → Nat → σ
  parsedCount : σ → Nat

/-- One `Pm_Read` call made by the poll loop: the buffer length passed
to the driver and the event word obtained. -/
structure ReadCall where
  bufLen : Nat
  event : Nat
deriving DecidableEq, Repr

/-- The `for i in range(4)` loop of `Input.poll`: feed
`packed_message & 0xff` to the parser, then `packed_message >>= 8`,
`n` times. -/
def feedLoop {σ : Type} (P : ParserModel σ) : Nat → Nat → σ → σ
  | 0, _, s => s
  | n + 1, packed, s => feedLoop P n (packed >>> 8) (P.feedByte s (packed % 256))

/-- Processing of one read event by `Input.poll`: mask
`event.message & 0xffffffff` and run the 4-round feed loop. -/
def feedWord {σ : Type} (P : ParserModel σ) (s : σ) (word : Nat) : σ :=
  feedLoop P 4 (word % 4294967296) s

/-- The `while pm.lib.Pm_Poll(self._stream)` loop of `Input.poll`,
with the pending driver events modelled as the list the driver would
deliver one at a time: while an event is pending, call `Pm_Read` with
buffer length 1, obtain one event and feed its bytes. Returns the
final parser state and the trace of read calls. -/
def pollLoop {σ : Type} (P : ParserModel σ) :
    List Nat → σ → σ × List ReadCall
  | [], s => (s, [])
  | w :: rest, s =>
      let out := pollLoop P rest (feedWord P s w)
      (out.1, { bufLen := 1, event := w } :: out.2)

/-- `Input.poll()` from the source: return absent (`None`) on a closed
port; otherwise drain the pending events and return
`len(self._parser._parsed_messages)`. -/
def poll {σ : Type} (P : ParserModel σ) (closed : Bool)
    (pending : List Nat) (s : σ) : Option Nat × σ × List ReadCall :=
  if closed then (none, s, [])
  else
    let out := pollLoop P pending s
    (some (P.parsedCount out.1), out.1, out.2)

/-- The poll loop folds `feedWord` over the pending events and issues
one buffer-length-1 read call per event, in order. -/
theorem pollLoop_eq {σ : Type} (P : ParserModel σ) (pending : List Nat)
    (s : σ) :
    pollLoop P pending s =
      (pending.foldl (feedWord P) s,
       pending.map (fun w => { bufLen := 1, event := w })) := by
  induction pending generalizing s with
  | nil => rfl
  | cons w rest ih => simp [pollLoop, List.foldl_cons, ih]

/-- The interleaved feed loop of the source feeds exactly the bytes
`decodeBytes` extracts, in the same order. -/
theorem feedLoop_eq_decodeBytes {σ : Type} (P : ParserModel σ) :
    ∀ (n packed : Nat) (s : σ),
      feedLoop P n packed s = (decodeBytes n packed).foldl P.feedByte s := by
  intro n
  induction n with
  | zero => intro packed s; rfl
  | succ m ih => intro packed s; simp [feedLoop, decodeBytes, ih]

/-- C6: polling an open input port reads exactly one event per driver
read call — the event trace of the read calls is the pending list
itself and every call passes buffer length 1 — feeds each event as its
4 decoded bytes to the parser, and returns the parser's count of fully
assembled buffered messages in the final parser state (not the number
of events consumed). -/
theorem poll_open_spec {σ : Type} (P : ParserModel σ) (pending : List Nat)
    (s : σ) :
    (poll P false pending s).1 =
        some (P.parsedCount (pending.foldl (feedWord P) s))
    ∧ (poll P false pending s).2.2.map (fun c => c.event) = pending
    ∧ (∀ c ∈ (poll P false pending s).2.2, c.bufLen = 1)
    ∧ (∀ (w : Nat) (t : σ),
        feedWord P t w = (decode w).foldl P.feedByte t) := by
  have hp := pollLoop_eq P pending s
  refine ⟨?_, ?_, ?_, ?_⟩
  · simp [poll, hp]
  · simp [poll, hp, List.map_map, Function.comp_def]
  · intro c hc
    simp only [poll, if_neg Bool.false_ne_true, hp, List.mem_map] at hc
    obtain ⟨w, hw, rfl⟩ := hc
    rfl
  · intro w t
    exact feedLoop_eq_decodeBytes P 4 (w % 4294967296) t

/-- C9: polling a closed input port returns absent immediately: no
driver call is made and the parser state is untouched. -/
theorem poll_closed_absent {σ : Type} (P : ParserModel σ)
    (pending : List Nat) (s : σ) :
    poll P true pending s = (none, s, []) := rfl

/-! ## Module driver-init flag -/

/-- `_initialize()` from the source: the whole body is guarded by
`if _initialized:` — only when the flag is already true does it call
`pm.lib.Pm_Initialize()` and assign `_initialized = True`. Returns the
new flag value and whether the driver init call was made. -/
def initFlagStep (flag : Bool) : Bool × Bool :=
  if flag then (true, true) else (flag, false)

/-- The operations of the module that could touch the flag: a port
construction (`Port.__init__` calls `_initialize()`) and a registry
query (`get_devices()` and the name queries, which never touch it). -/
inductive ModuleOp where
  | portConstruct
  | registryQuery
deriving DecidableEq, Repr

/-- Module-level state: the `_initialized` flag (initially `False`) and
a count of `Pm_Initialize` driver calls made so far. -/
structure ModuleState where
  initialized : Bool
  initCalls : Nat
deriving DecidableEq, Repr

/-- Effect of one module operation on the module-level state. -/
def moduleStep (st : ModuleState) : ModuleOp → ModuleState
  | ModuleOp.portConstruct =>
      let out := initFlagStep st.initialized
      { initialized := out.1,
        initCalls := st.initCalls + (if out.2 then 1 else 0) }
  | ModuleOp.registryQuery => st

/-- C7: starting from the initial module state (flag false, no driver
init call made), every sequence of port constructions and registry
queries leaves the flag false and the count of driver initialization
calls at zero — `_initialize` only acts when the flag is already true,
so the flag can never become true. -/
theorem initialized_stays_false (ops : List ModuleOp) :
    ops.foldl moduleStep { initialized := false, initCalls := 0 } =
      { initialized := false, initCalls := 0 } := by
  induction ops with
  | nil => rfl
  | cons op rest ih =>
    have hstep : moduleStep { initialized := false, initCalls := 0 } op =
        { initialized := false, initCalls := 0 } := by
      cases op <;> rfl
    rw [List.foldl_cons, hstep]
    exact ih
